import Mathlib

/-!
Shallow embedding of `scape_utils/utils.py`: the 3DU16 header codec
(`ScapeImageHeader`), the memory-mapped virtual stack with single- and
multi-volume retrieval (`ScapeVirtualStack.get_volume`,
`ScapeVirtualStack.get_multi_volumes`), the intensity-conversion lookup
tables (`LUT_TABLE`), the chunked-export loop, and the context-manager
resource protocol.

Modelling conventions:
* the memory-mapped file is a total byte function `Int → Nat` (byte value at
  an absolute offset); all offsets actually dereferenced by the code under
  the proved hypotheses are nonnegative and inside a well-formed file;
* machine integers are `Int`/`Nat` (the header's five counters are decoded
  as signed big-endian 32-bit values via `toInt32`);
* the three IEEE-754 doubles in the header are represented by their raw
  big-endian 64-bit words (`Nat`); binary64 decoding is a function of the
  word, so field-routing statements are unaffected;
* numpy arrays are `Arr5`: a shape tuple plus a total indexing function
  (row-major `frombuffer`/`reshape`/`transpose` semantics made explicit);
* Python exceptions are `Except String` results carrying the message text.
-/

namespace ScapeUtils

/-- Models `str.lower` on a single ASCII character (the only characters that
occur in the file suffixes the decoder compares against). -/
def lowerChar (c : Char) : Char :=
  if 'A' ≤ c ∧ c ≤ 'Z' then Char.ofNat (c.toNat + 32) else c

/-- Models `str.lower` for ASCII strings. -/
def lowerStr (s : String) : String := String.mk (s.toList.map lowerChar)

/-- Models `pathlib.PurePath.suffix` for a plain file name: the substring
from the last dot (inclusive); empty when the name has no dot or its only
dot is the leading character (hidden-file rule). -/
def pySuffix (name : String) : String :=
  let cs := name.toList
  let dots := (List.range cs.length).filter fun i => cs.getD i ' ' = '.'
  match dots.getLast? with
  | none => ""
  | some i => if i = 0 then "" else String.mk (cs.drop i)

/-- Byte of the header prefix at position `i` (`0` beyond the end, which the
length guard in `unpack_i3d6i` rules out for decoded fields). -/
def byteAt (bytes : List Nat) (i : Nat) : Nat := bytes.getD i 0

/-- Big-endian 32-bit word starting at byte offset `o`. -/
def be32 (bytes : List Nat) (o : Nat) : Nat :=
  ((byteAt bytes o * 256 + byteAt bytes (o + 1)) * 256 + byteAt bytes (o + 2)) * 256
    + byteAt bytes (o + 3)

/-- Big-endian 64-bit word starting at byte offset `o` (raw IEEE-754 binary64
bits of a `>d` field, kept as the representing `Nat`). -/
def be64 (bytes : List Nat) (o : Nat) : Nat :=
  be32 bytes o * 2 ^ 32 + be32 bytes (o + 4)

/-- Two's-complement reading of a 32-bit word: the value of a `>i`
(big-endian signed int) field in `struct.unpack`. -/
def toInt32 (v : Nat) : Int :=
  if v < 2 ^ 31 then (v : Int) else (v : Int) - 2 ^ 32

/-- Models `struct.unpack(">i3d6i", raw)` applied to `raw = f.read(52)`:
`read(52)` yields the first `min(len, 52)` bytes and `unpack` demands exactly
52, so decoding fails exactly when the file is shorter than 52 bytes.
On success the ten fields are the leading `>i`, three `>d` words (kept raw),
and six further `>i` values at byte offsets 28, 32, 36, 40, 44, 48. -/
def unpack_i3d6i (bytes : List Nat) :
    Option (Int × Nat × Nat × Nat × Int × Int × Int × Int × Int × Int) :=
  if bytes.length < 52 then none
  else some (toInt32 (be32 bytes 0), be64 bytes 4, be64 bytes 12, be64 bytes 20,
    toInt32 (be32 bytes 28), toInt32 (be32 bytes 32), toInt32 (be32 bytes 36),
    toInt32 (be32 bytes 40), toInt32 (be32 bytes 44), toInt32 (be32 bytes 48))

/-- The `ScapeImageHeader` NamedTuple: three voxel scales (raw binary64
words) and five decoded counters, in the source's field order. -/
structure ScapeImageHeader where
  x_scale : Nat
  y_scale : Nat
  z_scale : Nat
  n_frame : Int
  n_channel : Int
  depth : Int
  height : Int
  width : Int
deriving DecidableEq, Repr

/-- Models `ScapeImageHeader.from_3DU16` (utils.py lines 42-56): reject a
wrong (case-insensitive) suffix with a TypeError, decode the 52-byte prefix
with `struct.unpack(">i3d6i")`, take `vals[1:4]` as `(z_scale, y_scale,
x_scale)` and `vals[5:10]` as the five counters, and store them verbatim.
The file is given as its name plus its byte content. -/
def ScapeImageHeader.from_3DU16 (name : String) (bytes : List Nat) :
    Except String ScapeImageHeader :=
  if lowerStr (pySuffix name) ≠ ".3du16" then
    .error ("Only support (*.3d16 or *.3DU16): " ++ name)
  else
    match unpack_i3d6i bytes with
    | none => .error "This file might not be a valid 3DU16 file"
    | some (_, z_scale, y_scale, x_scale, _, n_frame, n_channel, depth, height, width) =>
      .ok ⟨x_scale, y_scale, z_scale, n_frame, n_channel, depth, height, width⟩

/-- Property `bytes_per_xy` (lines 58-60). -/
def ScapeImageHeader.bytes_per_xy (h : ScapeImageHeader) : Int :=
  h.height * h.width * 2

/-- Property `bytes_per_xyz` (lines 62-64). -/
def ScapeImageHeader.bytes_per_xyz (h : ScapeImageHeader) : Int :=
  h.height * h.width * 2 * h.depth

/-- Property `pixels_per_volume` (lines 71-73). -/
def ScapeImageHeader.pixels_per_volume (h : ScapeImageHeader) : Int :=
  h.height * h.width * h.depth * h.n_channel

/-- Property `bytes_per_volume` (lines 66-69): `pixels_per_volume * 2 + gap`
with `gap = 16`. -/
def ScapeImageHeader.bytes_per_volume (h : ScapeImageHeader) : Int :=
  h.pixels_per_volume * 2 + 16

/-- Property `shape` (lines 75-78): the TCZYX tuple. -/
def ScapeImageHeader.shape (h : ScapeImageHeader) : Int × Int × Int × Int × Int :=
  (h.n_frame, h.n_channel, h.depth, h.height, h.width)

/-- Property `scales` (lines 80-83): the (z, y, x) scale tuple. -/
def ScapeImageHeader.scales (h : ScapeImageHeader) : Nat × Nat × Nat :=
  (h.z_scale, h.y_scale, h.x_scale)

/-- A 5-dimensional numpy array as the retrieval code produces it: the shape
tuple plus a total row-major indexing function.  `frombuffer` with dtype
`>u2` makes every element the big-endian 16-bit sample at an explicit byte
offset, so `reshape` and `transpose` are index arithmetic on that function. -/
structure Arr5 where
  shape : Int × Int × Int × Int × Int
  val : Int → Int → Int → Int → Int → Nat

/-- Models `ndarray.transpose((0, 2, 1, 3, 4))`: the TCZYX → TZCYX axis
permutation used for the imagej interchange layout. -/
def Arr5.transposeTZC (a : Arr5) : Arr5 :=
  { shape := (a.shape.1, a.shape.2.2.1, a.shape.2.1, a.shape.2.2.2.1, a.shape.2.2.2.2)
    val := fun t z c y x => a.val t c z y x }

/-- The big-endian unsigned 16-bit sample whose first byte sits at absolute
offset `o` of the mapped file (numpy dtype `>u2`). -/
def be16 (file : Int → Nat) (o : Int) : Nat :=
  file o * 256 + file (o + 1)

/-- The open `ScapeVirtualStack`: the parsed header plus the read-only
memory mapping `raf`, modelled as the byte at each absolute offset. -/
structure ScapeVirtualStack where
  header : ScapeImageHeader
  raf : Int → Nat

/-- Models `ScapeVirtualStack.get_volume` (lines 107-139) on the native
(no-conversion) path: bounds check, then `raf[offset+gap : offset+bytes_per_volume]`
read as big-endian u16 with `count = pixels_per_volume`, reshaped to
(C, Z, Y, X), a unit time axis prepended, and optionally transposed to
TZCYX.  The conversion branch (lines 141-154) is modelled separately by
`get_volume_conversion`/`convApply`. -/
def ScapeVirtualStack.get_volume (st : ScapeVirtualStack) (index : Int)
    (imagej : Bool) : Except String Arr5 :=
  let C := st.header.n_channel
  let Z := st.header.depth
  let Y := st.header.height
  let X := st.header.width
  let bytes_per_volume := st.header.bytes_per_volume
  if index < 0 ∨ index ≥ st.header.n_frame then
    .error ("Index is out of boundary: " ++ toString index)
  else
    let gap : Int := 16
    let offset : Int := 52 + index * bytes_per_volume
    let stack : Arr5 :=
      { shape := (1, C, Z, Y, X)
        val := fun _ c z y x =>
          be16 st.raf (offset + gap + 2 * (((c * Z + z) * Y + y) * X + x)) }
    .ok (if imagej then stack.transposeTZC else stack)

/-- Models `ScapeVirtualStack.get_multi_volumes` (lines 156-196) on the
native path: both endpoint checks, the swap of an inverted range, then the
gap-inclusive block `raf[offset : offset + bytes_per_volume * N]` read as
big-endian u16, `reshape((N, -1))` (rows of `bytes_per_volume / 2` samples),
the `[:, gap // 2 :]` strip, the reshape to (N, C, Z, Y, X) and the optional
TZCYX transpose.  The conversion branch (lines 198-211) is modelled
separately by `get_multi_volumes_conversion`. -/
def ScapeVirtualStack.get_multi_volumes (st : ScapeVirtualStack)
    (start end_ : Int) (imagej : Bool) : Except String Arr5 :=
  let C := st.header.n_channel
  let Z := st.header.depth
  let Y := st.header.height
  let X := st.header.width
  let bytes_per_volume := st.header.bytes_per_volume
  if start < 0 ∨ start ≥ st.header.n_frame then
    .error ("Index is out of boundary: start=" ++ toString start)
  else if end_ < 0 ∨ end_ ≥ st.header.n_frame then
    .error ("Index is out of boundary: end=" ++ toString end_)
  else
    let s := if start > end_ then end_ else start
    let e := if start > end_ then start else end_
    let N := e - s + 1
    let gap : Int := 16
    let offset : Int := 52 + s * bytes_per_volume
    let row := bytes_per_volume / 2
    let stack : Arr5 :=
      { shape := (N, C, Z, Y, X)
        val := fun n c z y x =>
          be16 st.raf (offset + 2 * (n * row + gap / 2 +
            (((c * Z + z) * Y + y) * X + x))) }
    .ok (if imagej then stack.transposeTZC else stack)

/-- The two lookup tables held by `LUT_TABLE` (lines 26-29). -/
inductive ConvLut
  | u8
  | f32
deriving DecidableEq, Repr

/-- Models `LUT_TABLE.get(key)`: the dictionary holds exactly the keys
`"u8"` and `"f32"`. -/
def LUT_TABLE_get (key : String) : Option ConvLut :=
  if key = "u8" then some ConvLut.u8
  else if key = "f32" then some ConvLut.f32
  else none

/-- The `"u8"` table entry `np.floor(np.arange(65536) / 256).astype(np.uint8)`
at index `i`: floor of the exact quotient, wrapped into the uint8 range by
the cast. -/
def lut_u8 (i : Nat) : Nat :=
  (Int.floor ((i : ℚ) / 256)).toNat % 256

/-- Ideal real-valued semantics of `np.linspace(a, b, num, endpoint=True)`
at index `i`: `a + i * ((b - a) / (num - 1))`, over exact rationals. -/
def linspace (a b : ℚ) (num : Nat) (i : Nat) : ℚ :=
  a + (i : ℚ) * ((b - a) / ((num : ℚ) - 1))

/-- The `"f32"` table entry `np.linspace(0.0, 1.0, 65536, endpoint=True)` at
index `i` (exact-rational semantics of the float32 table). -/
def lut_f32 (i : Nat) : ℚ := linspace 0 1 65536 i

/-- Elementwise effect of an optional lookup table on a native 16-bit
sample, into the common exact-rational value domain (`lut[stack]` is an
elementwise gather; `none` is the native passthrough). -/
def convApply : Option ConvLut → Nat → ℚ
  | none, i => (i : ℚ)
  | some ConvLut.u8, i => (lut_u8 i : ℚ)
  | some ConvLut.f32, i => lut_f32 i

/-- Outcome of the conversion branch of a retrieval call: which lookup table
(if any) is applied elementwise, and whether the unsupported-conversion
`UserWarning` is emitted. -/
structure ConvOutcome where
  lut : Option ConvLut
  warned : Bool
deriving DecidableEq, Repr

/-- Models the conversion branch of `get_volume` (lines 141-154):
`None` returns the native stack; otherwise `LUT_TABLE.get(conversion)` is
consulted, a miss warns and returns the native stack, a hit applies the
table. -/
def get_volume_conversion (conversion : Option String) : ConvOutcome :=
  match conversion with
  | none => ⟨none, false⟩
  | some key =>
    match LUT_TABLE_get key with
    | none => ⟨none, true⟩
    | some l => ⟨some l, false⟩

/-- Models the conversion branch of `get_multi_volumes` (lines 198-211):
identical to the single-volume branch except that the key `"u16"` is
short-circuited to the native stack before the table lookup, so no warning
is emitted for it. -/
def get_multi_volumes_conversion (conversion : Option String) : ConvOutcome :=
  match conversion with
  | none => ⟨none, false⟩
  | some key =>
    if key = "u16" then ⟨none, false⟩
    else
      match LUT_TABLE_get key with
      | none => ⟨none, true⟩
      | some l => ⟨some l, false⟩

/-- Models Python's `range(start, stop, step)` for a positive step, as the
list of values the `for` loop visits. -/
def pyRangeStep (start stop step : Int) : List Int :=
  if 0 < step ∧ start < stop then
    start :: pyRangeStep (start + step) stop step
  else []
termination_by (stop - start).toNat
decreasing_by omega

/-- Models the chunk loop shared by `save_all_volumes_to_tiff` (lines
246-253) and `save_all_volumes_to_hdf` (lines 282-286): for each
`start in range(0, T, chunksize)` the batch endpoints are
`(start, min(start + chunksize - 1, T - 1))`, retrieved via
`get_multi_volumes(start, end, conversion, imagej=True)`. -/
def chunkBounds (T chunksize : Int) : List (Int × Int) :=
  (pyRangeStep 0 T chunksize).map fun s => (s, min (s + chunksize - 1) (T - 1))

/-- Resource state of a `ScapeVirtualStack`: whether the memory mapping and
the underlying file handle are currently open. -/
structure StackState where
  raf_open : Bool
  handler_open : Bool
deriving DecidableEq, Repr

/-- The Closed state: neither the mapping nor the file handle is held. -/
def closedStack : StackState := ⟨false, false⟩

/-- Models `__enter__` (lines 98-101): `self.handler = open(...)` followed by
`self.raf = mmap.mmap(...)`, with no try/finally.  A failing `open` leaves
the state untouched; a failing `mmap` propagates with the handler already
assigned and open.  The flags say which of the two acquisitions succeeds. -/
def scape_enter (openOk mmapOk : Bool) : Option String × StackState :=
  if openOk then
    if mmapOk then (none, ⟨true, true⟩)
    else (some "mmap.mmap raised", ⟨false, true⟩)
  else (some "open raised", closedStack)

/-- Models `__exit__` (lines 103-105): closes the mapping, then the handle. -/
def scape_exit (_s : StackState) : StackState := ⟨false, false⟩

/-- Models the `with ScapeVirtualStack(path) as stack:` protocol around an
empty body: `__exit__` runs only when `__enter__` returned normally; an
exception escaping `__enter__` leaves whatever state it had built up. -/
def with_stack (openOk mmapOk : Bool) : Option String × StackState :=
  match scape_enter openOk mmapOk with
  | (none, s) => (none, scape_exit s)
  | (some e, s) => (some e, s)

/-- Normal form of an in-bounds `get_volume` call without the interchange
layout. -/
theorem get_volume_ok_plain (st : ScapeVirtualStack) (index : Int)
    (h0 : 0 ≤ index) (h1 : index < st.header.n_frame) :
    st.get_volume index false = .ok
      { shape := (1, st.header.n_channel, st.header.depth, st.header.height, st.header.width)
        val := fun _ c z y x =>
          be16 st.raf (52 + index * st.header.bytes_per_volume + 16 +
            2 * (((c * st.header.depth + z) * st.header.height + y) * st.header.width + x)) } := by
  simp only [ScapeVirtualStack.get_volume,
    if_neg (show ¬(index < 0 ∨ index ≥ st.header.n_frame) by omega), if_neg Bool.false_ne_true]

/-- Normal form of an in-bounds `get_volume` call with the imagej
interchange layout. -/
theorem get_volume_ok_imagej (st : ScapeVirtualStack) (index : Int)
    (h0 : 0 ≤ index) (h1 : index < st.header.n_frame) :
    st.get_volume index true = .ok
      { shape := (1, st.header.depth, st.header.n_channel, st.header.height, st.header.width)
        val := fun _ z c y x =>
          be16 st.raf (52 + index * st.header.bytes_per_volume + 16 +
            2 * (((c * st.header.depth + z) * st.header.height + y) * st.header.width + x)) } := by
  simp only [ScapeVirtualStack.get_volume,
    if_neg (show ¬(index < 0 ∨ index ≥ st.header.n_frame) by omega), if_pos rfl]
  rfl

/-- Normal form of an in-bounds, already ordered `get_multi_volumes` call
without the interchange layout. -/
theorem get_multi_volumes_ok_plain (st : ScapeVirtualStack) (start end_ : Int)
    (h0 : 0 ≤ start) (hse : start ≤ end_) (h1 : end_ < st.header.n_frame) :
    st.get_multi_volumes start end_ false = .ok
      { shape := (end_ - start + 1, st.header.n_channel, st.header.depth,
          st.header.height, st.header.width)
        val := fun n c z y x =>
          be16 st.raf (52 + start * st.header.bytes_per_volume +
            2 * (n * (st.header.bytes_per_volume / 2) + 8 +
              (((c * st.header.depth + z) * st.header.height + y) * st.header.width + x))) } := by
  simp only [ScapeVirtualStack.get_multi_volumes,
    if_neg (show ¬(start < 0 ∨ start ≥ st.header.n_frame) by omega),
    if_neg (show ¬(end_ < 0 ∨ end_ ≥ st.header.n_frame) by omega),
    if_neg (show ¬(start > end_) by omega), if_neg Bool.false_ne_true]
  norm_num

/-- Normal form of an in-bounds, already ordered `get_multi_volumes` call
with the imagej interchange layout. -/
theorem get_multi_volumes_ok_imagej (st : ScapeVirtualStack) (start end_ : Int)
    (h0 : 0 ≤ start) (hse : start ≤ end_) (h1 : end_ < st.header.n_frame) :
    st.get_multi_volumes start end_ true = .ok
      { shape := (end_ - start + 1, st.header.depth, st.header.n_channel,
          st.header.height, st.header.width)
        val := fun n z c y x =>
          be16 st.raf (52 + start * st.header.bytes_per_volume +
            2 * (n * (st.header.bytes_per_volume / 2) + 8 +
              (((c * st.header.depth + z) * st.header.height + y) * st.header.width + x))) } := by
  simp only [ScapeVirtualStack.get_multi_volumes,
    if_neg (show ¬(start < 0 ∨ start ≥ st.header.n_frame) by omega),
    if_neg (show ¬(end_ < 0 ∨ end_ ≥ st.header.n_frame) by omega),
    if_neg (show ¬(start > end_) by omega), if_pos rfl]
  simp only [Arr5.transposeTZC]
  norm_num

/-- The per-volume byte stride is even, so the row width inferred by
`reshape((N, -1))` is exactly half of it. -/
theorem bytes_per_volume_two_mul (h : ScapeImageHeader) :
    2 * (h.bytes_per_volume / 2) = h.bytes_per_volume := by
  simp only [ScapeImageHeader.bytes_per_volume]
  omega

/-- Python's `range(start, stop, step)` visits `ceil((stop - start) / step)`
values when `step` is positive. -/
theorem pyRangeStep_length (stop step : Int) (hstep : 0 < step) (start : Int) :
    (pyRangeStep start stop step).length = ((stop - start + step - 1) / step).toNat := by
  by_cases hlt : start < stop
  · rw [pyRangeStep]
    simp only [hstep, hlt, and_self, if_true, List.length_cons]
    rw [pyRangeStep_length stop step hstep (start + step)]
    have h3 : (stop - (start + step) + step - 1 + 1 * step) / step
        = (stop - (start + step) + step - 1) / step + 1 :=
      Int.add_mul_ediv_right _ 1 (by omega)
    have h2 : stop - (start + step) + step - 1 + 1 * step = stop - start + step - 1 := by ring
    rw [h2] at h3
    have h6 : 0 ≤ (stop - (start + step) + step - 1) / step :=
      Int.ediv_nonneg (by omega) (by omega)
    omega
  · rw [pyRangeStep]
    simp only [hlt, and_false, if_false, List.length_nil]
    have h4 : stop - start + step - 1 < 1 * step := by omega
    have h5 : (stop - start + step - 1) / step < 1 := (Int.ediv_lt_iff_lt_mul hstep).mpr h4
    omega
termination_by (stop - start).toNat
decreasing_by omega

/-- The `b`-th value visited by `range(start, stop, step)` is
`start + b * step`. -/
theorem pyRangeStep_getD (stop step : Int) (hstep : 0 < step) (start : Int)
    (b : Nat) (hb : b < (pyRangeStep start stop step).length) :
    (pyRangeStep start stop step).getD b 0 = start + b * step := by
  induction b generalizing start with
  | zero =>
    rw [pyRangeStep] at hb ⊢
    by_cases hlt : start < stop
    · simp [hstep, hlt]
    · simp [hlt] at hb
  | succ n ih =>
    rw [pyRangeStep] at hb ⊢
    by_cases hlt : start < stop
    · simp only [hstep, hlt, and_self, if_true, List.length_cons,
        List.getD_cons_succ, Nat.add_lt_add_iff_right] at hb ⊢
      rw [ih (start + step) (by omega)]
      push_cast
      ring
    · simp [hlt] at hb

/-- Row-major flattening of an in-bounds (c, z, y, x) multi-index is
nonnegative and below `pixels_per_volume`. -/
theorem flat_index_bounds (h : ScapeImageHeader) (c z y x : Int)
    (hc0 : 0 ≤ c) (hc1 : c < h.n_channel) (hz0 : 0 ≤ z) (hz1 : z < h.depth)
    (hy0 : 0 ≤ y) (hy1 : y < h.height) (hx0 : 0 ≤ x) (hx1 : x < h.width) :
    0 ≤ ((c * h.depth + z) * h.height + y) * h.width + x ∧
    ((c * h.depth + z) * h.height + y) * h.width + x < h.pixels_per_volume := by
  have hZ : 0 < h.depth := by omega
  have hY : 0 < h.height := by omega
  have hX : 0 < h.width := by omega
  have hm0 : 0 ≤ c * h.depth := mul_nonneg hc0 (le_of_lt hZ)
  have hm1 : 0 ≤ (c * h.depth + z) * h.height := mul_nonneg (by omega) (le_of_lt hY)
  have hm2 : 0 ≤ ((c * h.depth + z) * h.height + y) * h.width := mul_nonneg (by omega) (le_of_lt hX)
  refine ⟨by omega, ?_⟩
  have s1 : ((c * h.depth + z) * h.height + y) * h.width + x
      < ((c * h.depth + z) * h.height + y + 1) * h.width := by nlinarith
  have s2 : ((c * h.depth + z) * h.height + y + 1) * h.width
      ≤ ((c * h.depth + z + 1) * h.height) * h.width := by nlinarith
  have s3 : ((c * h.depth + z + 1) * h.height) * h.width
      ≤ (((c + 1) * h.depth) * h.height) * h.width := by nlinarith
  have s4 : (((c + 1) * h.depth) * h.height) * h.width
      ≤ ((h.n_channel * h.depth) * h.height) * h.width := by nlinarith
  have : ((h.n_channel * h.depth) * h.height) * h.width = h.pixels_per_volume := by
    simp only [ScapeImageHeader.pixels_per_volume]
    ring
  omega

/-- Concrete header fixture used by the closed instantiations below:
T = 5, C = 1, Z = 2, Y = 1, X = 3 (raw scale words zero). -/
def hdrW : ScapeImageHeader := ⟨0, 0, 0, 5, 1, 2, 1, 3⟩

/-- Concrete mapped-file fixture: every byte reads zero. -/
def fileW : Int → Nat := fun _ => 0

/-- Concrete open-stack fixture over `hdrW` and `fileW`. -/
def stackW : ScapeVirtualStack := ⟨hdrW, fileW⟩

/-- C2: for every file whose extension lower-cases to ".3du16" and whose
first 52 bytes decode under the fixed big-endian layout, `from_3DU16`
succeeds with a header whose `shape` is exactly the five decoded counters
(T, C, Z, Y, X) read at byte offsets 32-48, whose `scales` is exactly the
(z, y, x) doubles read at offsets 4, 12, 20, and whose derived accessors
satisfy `pixels_per_volume = C*Z*Y*X` and
`bytes_per_volume = pixels_per_volume * 2 + 16`. -/
theorem from_3DU16_header_correct (name : String) (bytes : List Nat)
    (hsuffix : lowerStr (pySuffix name) = ".3du16")
    (hlen : 52 ≤ bytes.length) :
    ∃ hd : ScapeImageHeader,
      ScapeImageHeader.from_3DU16 name bytes = .ok hd ∧
      hd.shape = (toInt32 (be32 bytes 32), toInt32 (be32 bytes 36),
        toInt32 (be32 bytes 40), toInt32 (be32 bytes 44), toInt32 (be32 bytes 48)) ∧
      hd.scales = (be64 bytes 4, be64 bytes 12, be64 bytes 20) ∧
      hd.pixels_per_volume = hd.n_channel * hd.depth * hd.height * hd.width ∧
      hd.bytes_per_volume = hd.pixels_per_volume * 2 + 16 := by
  have hu : unpack_i3d6i bytes = some (toInt32 (be32 bytes 0), be64 bytes 4,
      be64 bytes 12, be64 bytes 20, toInt32 (be32 bytes 28), toInt32 (be32 bytes 32),
      toInt32 (be32 bytes 36), toInt32 (be32 bytes 40), toInt32 (be32 bytes 44),
      toInt32 (be32 bytes 48)) := by
    simp only [unpack_i3d6i, if_neg (show ¬(bytes.length < 52) by omega)]
  refine ⟨⟨be64 bytes 20, be64 bytes 12, be64 bytes 4,
    toInt32 (be32 bytes 32), toInt32 (be32 bytes 36), toInt32 (be32 bytes 40),
    toInt32 (be32 bytes 44), toInt32 (be32 bytes 48)⟩, ?_, rfl, rfl, ?_, rfl⟩
  · simp only [ScapeImageHeader.from_3DU16, hsuffix, ne_eq, not_true_eq_false,
      if_false, hu]
  · simp only [ScapeImageHeader.pixels_per_volume]
    ring

/-- C2 witness: a concrete ".3DU16"-named file of 52 zero bytes. -/
theorem from_3DU16_header_correct_witness :
    lowerStr (pySuffix "sample.3DU16") = ".3du16" ∧
    52 ≤ (List.replicate 52 0).length ∧
    ∃ hd : ScapeImageHeader,
      ScapeImageHeader.from_3DU16 "sample.3DU16" (List.replicate 52 0) = .ok hd ∧
      hd.shape = (toInt32 (be32 (List.replicate 52 0) 32), toInt32 (be32 (List.replicate 52 0) 36),
        toInt32 (be32 (List.replicate 52 0) 40), toInt32 (be32 (List.replicate 52 0) 44),
        toInt32 (be32 (List.replicate 52 0) 48)) ∧
      hd.scales = (be64 (List.replicate 52 0) 4, be64 (List.replicate 52 0) 12,
        be64 (List.replicate 52 0) 20) ∧
      hd.pixels_per_volume = hd.n_channel * hd.depth * hd.height * hd.width ∧
      hd.bytes_per_volume = hd.pixels_per_volume * 2 + 16 :=
  ⟨by decide, by decide,
    from_3DU16_header_correct "sample.3DU16" (List.replicate 52 0) (by decide) (by decide)⟩

/-- C10: header parsing fails exactly on a wrong (case-insensitive)
extension or a 52-byte prefix that cannot be decoded (the file is shorter
than 52 bytes — every 52-byte pattern decodes under `>i3d6i`); it validates
nothing else, and on success it stores the decoded values verbatim,
including zero or negative counters and arbitrary scale words. -/
theorem from_3DU16_no_value_validation (name : String) (bytes : List Nat) :
    ((∃ hd, ScapeImageHeader.from_3DU16 name bytes = .ok hd) ↔
      (lowerStr (pySuffix name) = ".3du16" ∧ 52 ≤ bytes.length)) ∧
    (lowerStr (pySuffix name) = ".3du16" → 52 ≤ bytes.length →
      ScapeImageHeader.from_3DU16 name bytes = .ok
        ⟨be64 bytes 20, be64 bytes 12, be64 bytes 4,
         toInt32 (be32 bytes 32), toInt32 (be32 bytes 36), toInt32 (be32 bytes 40),
         toInt32 (be32 bytes 44), toInt32 (be32 bytes 48)⟩) := by
  by_cases hsuffix : lowerStr (pySuffix name) = ".3du16"
  · by_cases hlen : 52 ≤ bytes.length
    · have hu : unpack_i3d6i bytes = some (toInt32 (be32 bytes 0), be64 bytes 4,
          be64 bytes 12, be64 bytes 20, toInt32 (be32 bytes 28), toInt32 (be32 bytes 32),
          toInt32 (be32 bytes 36), toInt32 (be32 bytes 40), toInt32 (be32 bytes 44),
          toInt32 (be32 bytes 48)) := by
        simp only [unpack_i3d6i, if_neg (show ¬(bytes.length < 52) by omega)]
      constructor
      · simp only [ScapeImageHeader.from_3DU16,
          if_neg (show ¬(lowerStr (pySuffix name) ≠ ".3du16") from not_not_intro hsuffix), hu]
        exact ⟨fun _ => ⟨hsuffix, hlen⟩, fun _ => ⟨_, rfl⟩⟩
      · intro _ _
        simp only [ScapeImageHeader.from_3DU16,
          if_neg (show ¬(lowerStr (pySuffix name) ≠ ".3du16") from not_not_intro hsuffix), hu]
    · have hu : unpack_i3d6i bytes = none := by
        simp only [unpack_i3d6i, if_pos (show bytes.length < 52 by omega)]
      constructor
      · simp only [ScapeImageHeader.from_3DU16,
          if_neg (show ¬(lowerStr (pySuffix name) ≠ ".3du16") from not_not_intro hsuffix), hu]
        constructor
        · rintro ⟨hd, hhd⟩
          exact absurd hhd (by simp)
        · rintro ⟨-, h52⟩
          exact absurd h52 hlen
      · intro _ h52
        exact absurd h52 hlen
  · constructor
    · simp only [ScapeImageHeader.from_3DU16,
        if_pos (show lowerStr (pySuffix name) ≠ ".3du16" from hsuffix)]
      constructor
      · rintro ⟨hd, hhd⟩
        exact absurd hhd (by simp)
      · rintro ⟨hsf, -⟩
        exact absurd hsf hsuffix
    · intro hsf
      exact absurd hsf hsuffix

/-- C10 witness: the decoded frame counter of this concrete file is the
negative value -1 (bytes 32-35 are 0xFF), and parsing still succeeds and
stores it verbatim. -/
theorem from_3DU16_no_value_validation_witness :
    ((∃ hd, ScapeImageHeader.from_3DU16 "neg.3du16"
        (List.replicate 32 0 ++ [255, 255, 255, 255] ++ List.replicate 16 0) = .ok hd) ↔
      (lowerStr (pySuffix "neg.3du16") = ".3du16" ∧
        52 ≤ (List.replicate 32 0 ++ [255, 255, 255, 255] ++ List.replicate 16 0).length)) ∧
    (lowerStr (pySuffix "neg.3du16") = ".3du16" →
      52 ≤ (List.replicate 32 0 ++ [255, 255, 255, 255] ++ List.replicate 16 0).length →
      ScapeImageHeader.from_3DU16 "neg.3du16"
          (List.replicate 32 0 ++ [255, 255, 255, 255] ++ List.replicate 16 0) = .ok
        ⟨be64 (List.replicate 32 0 ++ [255, 255, 255, 255] ++ List.replicate 16 0) 20,
         be64 (List.replicate 32 0 ++ [255, 255, 255, 255] ++ List.replicate 16 0) 12,
         be64 (List.replicate 32 0 ++ [255, 255, 255, 255] ++ List.replicate 16 0) 4,
         toInt32 (be32 (List.replicate 32 0 ++ [255, 255, 255, 255] ++ List.replicate 16 0) 32),
         toInt32 (be32 (List.replicate 32 0 ++ [255, 255, 255, 255] ++ List.replicate 16 0) 36),
         toInt32 (be32 (List.replicate 32 0 ++ [255, 255, 255, 255] ++ List.replicate 16 0) 40),
         toInt32 (be32 (List.replicate 32 0 ++ [255, 255, 255, 255] ++ List.replicate 16 0) 44),
         toInt32 (be32 (List.replicate 32 0 ++ [255, 255, 255, 255] ++ List.replicate 16 0) 48)⟩) :=
  from_3DU16_no_value_validation "neg.3du16"
    (List.replicate 32 0 ++ [255, 255, 255, 255] ++ List.replicate 16 0)

/-- C4 counterexample: at the conversion key "u16" the two retrieval
operations do not share warning behaviour — `get_volume` emits the
unsupported-conversion warning (the key is not in `LUT_TABLE`) while
`get_multi_volumes` short-circuits it silently; both return native data. -/
theorem conversion_semantics_differ_at_u16 :
    get_volume_conversion (some "u16") ≠ get_multi_volumes_conversion (some "u16") ∧
    (get_volume_conversion (some "u16")).warned = true ∧
    (get_multi_volumes_conversion (some "u16")).warned = false ∧
    (get_volume_conversion (some "u16")).lut = none ∧
    (get_multi_volumes_conversion (some "u16")).lut = none := by
  decide

/-- C4 amended: for every conversion key other than "u16" the conversion
branch of `get_multi_volumes` is identical to that of `get_volume` (same
applied lookup table — hence the same output element type and elementwise
map via `convApply` — and a warning in one exactly when in the other); at
"u16" both return the native 16-bit data but only `get_volume` warns. -/
theorem conversion_semantics_agree_except_u16 (key : Option String)
    (hne : key ≠ some "u16") :
    get_volume_conversion key = get_multi_volumes_conversion key ∧
    (get_volume_conversion (some "u16")).lut =
      (get_multi_volumes_conversion (some "u16")).lut := by
  refine ⟨?_, by decide⟩
  match key with
  | none => rfl
  | some k =>
    have hk : k ≠ "u16" := fun h => hne (by rw [h])
    simp only [get_volume_conversion, get_multi_volumes_conversion, if_neg hk]

/-- C4 witness: instantiation at the key "u8". -/
theorem conversion_semantics_agree_except_u16_witness :
    some "u8" ≠ some "u16" ∧
    (get_volume_conversion (some "u8") = get_multi_volumes_conversion (some "u8") ∧
      (get_volume_conversion (some "u16")).lut =
        (get_multi_volumes_conversion (some "u16")).lut) :=
  ⟨by decide, conversion_semantics_agree_except_u16 (some "u8") (by decide)⟩

/-- C5 counterexample: on the concrete stack with 5 frames, `get_volume 7`
raises "Index is out of boundary: 7" — the message renders the offending
index but neither the frame count 5 nor the last valid index 4, so it does
not name the valid range. -/
theorem index_error_message_omits_range :
    stackW.get_volume 7 false = .error "Index is out of boundary: 7" ∧
    stackW.header.n_frame = 5 ∧
    ¬ List.IsInfix (toString stackW.header.n_frame).toList
        "Index is out of boundary: 7".toList ∧
    ¬ List.IsInfix (toString (stackW.header.n_frame - 1)).toList
        "Index is out of boundary: 7".toList := by
  refine ⟨rfl, by decide, by decide, by decide⟩

/-- C5 amended: every out-of-range single index makes `get_volume` fail
with an IndexError whose message names the offending index (but not the
valid range), and every out-of-range endpoint makes `get_multi_volumes`
fail with an IndexError identifying which bound was out of range — `start`
is checked first — with no array ever produced (the `Except` is an error,
so no partial data is returned and no bytes are consumed). -/
theorem out_of_range_raises_index_error (st : ScapeVirtualStack)
    (index start end_ : Int) (imagej : Bool)
    (hidx : index < 0 ∨ index ≥ st.header.n_frame) :
    st.get_volume index imagej =
      .error ("Index is out of boundary: " ++ toString index) ∧
    ((start < 0 ∨ start ≥ st.header.n_frame) →
      st.get_multi_volumes start end_ imagej =
        .error ("Index is out of boundary: start=" ++ toString start)) ∧
    (0 ≤ start → start < st.header.n_frame → (end_ < 0 ∨ end_ ≥ st.header.n_frame) →
      st.get_multi_volumes start end_ imagej =
        .error ("Index is out of boundary: end=" ++ toString end_)) := by
  refine ⟨?_, ?_, ?_⟩
  · simp only [ScapeVirtualStack.get_volume, if_pos hidx]
  · intro hs
    simp only [ScapeVirtualStack.get_multi_volumes, if_pos hs]
  · intro hs0 hs1 he
    simp only [ScapeVirtualStack.get_multi_volumes,
      if_neg (show ¬(start < 0 ∨ start ≥ st.header.n_frame) by omega), if_pos he]

/-- C5 witness: instantiation on the concrete stack at index 7 and range
endpoints (2, 9). -/
theorem out_of_range_raises_index_error_witness :
    ((7 : Int) < 0 ∨ (7 : Int) ≥ stackW.header.n_frame) ∧
    (stackW.get_volume 7 false =
      .error ("Index is out of boundary: " ++ toString (7 : Int)) ∧
    (((2 : Int) < 0 ∨ (2 : Int) ≥ stackW.header.n_frame) →
      stackW.get_multi_volumes 2 9 false =
        .error ("Index is out of boundary: start=" ++ toString (2 : Int))) ∧
    ((0 : Int) ≤ 2 → (2 : Int) < stackW.header.n_frame →
      ((9 : Int) < 0 ∨ (9 : Int) ≥ stackW.header.n_frame) →
      stackW.get_multi_volumes 2 9 false =
        .error ("Index is out of boundary: end=" ++ toString (9 : Int)))) :=
  ⟨by decide, out_of_range_raises_index_error stackW 7 2 9 false (by decide)⟩

/-- C7: over the whole 16-bit domain the "u8" table is `floor(i / 256)`
with outputs at most 255, the "f32" table is the linear ramp `i / 65535`
with endpoints 0 and 1, passing no conversion key applies no table
(native passthrough), and any key missing from `LUT_TABLE` makes
`get_volume` warn and return the native data. -/
theorem conversion_tables_correct (i : Nat) (key : String)
    (hi : i ≤ 65535) (hkey : LUT_TABLE_get key = none) :
    lut_u8 i = i / 256 ∧ lut_u8 i ≤ 255 ∧
    lut_f32 i = (i : ℚ) / 65535 ∧
    lut_f32 0 = 0 ∧ lut_f32 65535 = 1 ∧
    get_volume_conversion none = ⟨none, false⟩ ∧
    convApply none i = (i : ℚ) ∧
    get_volume_conversion (some key) = ⟨none, true⟩ := by
  have hu8 : lut_u8 i = i / 256 := by
    have hcast : ((i : ℚ) / 256) = (((i : ℤ) : ℚ) / ((256 : ℕ) : ℚ)) := by norm_num
    have hfloor : Int.floor ((i : ℚ) / 256) = ((i / 256 : ℕ) : ℤ) := by
      rw [hcast, Rat.floor_intCast_div_natCast, Int.natCast_div]
    simp only [lut_u8, hfloor, Int.toNat_natCast]
    omega
  have hf32 : lut_f32 i = (i : ℚ) / 65535 := by
    simp only [lut_f32, linspace]
    norm_num
    ring
  refine ⟨hu8, by omega, hf32, ?_, ?_, rfl, rfl, ?_⟩
  · simp [lut_f32, linspace]
  · simp only [lut_f32, linspace]
    norm_num
  · simp only [get_volume_conversion, hkey]

/-- C7 witness: instantiation at the sample value 513 and the unrecognized
key "u16". -/
theorem conversion_tables_correct_witness :
    (513 : Nat) ≤ 65535 ∧ LUT_TABLE_get "u16" = none ∧
    (lut_u8 513 = 513 / 256 ∧ lut_u8 513 ≤ 255 ∧
    lut_f32 513 = (513 : ℚ) / 65535 ∧
    lut_f32 0 = 0 ∧ lut_f32 65535 = 1 ∧
    get_volume_conversion none = ⟨none, false⟩ ∧
    convApply none 513 = (513 : ℚ) ∧
    get_volume_conversion (some "u16") = ⟨none, true⟩) :=
  ⟨by decide, by decide, conversion_tables_correct 513 "u16" (by decide) (by decide)⟩

/-- C9: evaluating the resource protocol.  A successful open followed by
scope exit releases both resources, and a failing `open` retains nothing —
but when `mmap.mmap` raises after the file handle was opened, `__exit__` is
never invoked and the handle stays open, so the stack does not return to
the Closed state: the spec's "no partial state retained" guarantee is
violated by the code. -/
theorem enter_mmap_failure_leaks_handler :
    (with_stack true true).2 = closedStack ∧
    (with_stack false false).2 = closedStack ∧
    (with_stack true false).1.isSome = true ∧
    (with_stack true false).2.handler_open = true ∧
    (with_stack true false).2 ≠ closedStack := by
  decide

/-- C1: over any open stack, for valid `0 ≤ start ≤ end < T`, the
gap-inclusive block read of `get_multi_volumes` (no conversion, no
interchange layout) returns `end - start + 1` volumes whose frame `i` is
element-wise identical to the single volume produced by
`get_volume (start + i)` with its up-front gap skip. -/
theorem get_multi_volumes_refines_get_volume (st : ScapeVirtualStack)
    (start end_ i c z y x : Int)
    (hs : 0 ≤ start) (hse : start ≤ end_) (he : end_ < st.header.n_frame)
    (hi0 : 0 ≤ i) (hiN : i < end_ - start + 1)
    (hc0 : 0 ≤ c) (hc1 : c < st.header.n_channel)
    (hz0 : 0 ≤ z) (hz1 : z < st.header.depth)
    (hy0 : 0 ≤ y) (hy1 : y < st.header.height)
    (hx0 : 0 ≤ x) (hx1 : x < st.header.width) :
    ∃ multi single : Arr5,
      st.get_multi_volumes start end_ false = .ok multi ∧
      st.get_volume (start + i) false = .ok single ∧
      multi.shape = (end_ - start + 1, st.header.n_channel, st.header.depth,
        st.header.height, st.header.width) ∧
      single.shape = (1, st.header.n_channel, st.header.depth,
        st.header.height, st.header.width) ∧
      multi.val i c z y x = single.val 0 c z y x := by
  refine ⟨_, _, get_multi_volumes_ok_plain st start end_ hs hse he,
    get_volume_ok_plain st (start + i) (by omega) (by omega), rfl, rfl, ?_⟩
  show be16 st.raf _ = be16 st.raf _
  congr 1
  have hb := bytes_per_volume_two_mul st.header
  generalize st.header.bytes_per_volume / 2 = r at hb
  rw [← hb]
  ring

/-- C1 witness: concrete instantiation on `stackW` with the range (1, 3),
local frame 2 and voxel (0, 1, 0, 2). -/
theorem get_multi_volumes_refines_get_volume_witness :
    ((0 : Int) ≤ 1 ∧ (1 : Int) ≤ 3 ∧ (3 : Int) < stackW.header.n_frame ∧
     (0 : Int) ≤ 2 ∧ (2 : Int) < 3 - 1 + 1 ∧
     (0 : Int) ≤ 0 ∧ (0 : Int) < stackW.header.n_channel ∧
     (0 : Int) ≤ 1 ∧ (1 : Int) < stackW.header.depth ∧
     (0 : Int) ≤ 0 ∧ (0 : Int) < stackW.header.height ∧
     (0 : Int) ≤ 2 ∧ (2 : Int) < stackW.header.width) ∧
    (∃ multi single : Arr5,
      stackW.get_multi_volumes 1 3 false = .ok multi ∧
      stackW.get_volume (1 + 2) false = .ok single ∧
      multi.shape = (3 - 1 + 1, stackW.header.n_channel, stackW.header.depth,
        stackW.header.height, stackW.header.width) ∧
      single.shape = (1, stackW.header.n_channel, stackW.header.depth,
        stackW.header.height, stackW.header.width) ∧
      multi.val 2 0 1 0 2 = single.val 0 0 1 0 2) :=
  ⟨by decide,
    get_multi_volumes_refines_get_volume stackW 1 3 2 0 1 0 2 (by decide) (by decide)
      (by decide) (by decide) (by decide) (by decide) (by decide) (by decide)
      (by decide) (by decide) (by decide) (by decide) (by decide)⟩

/-- C3: an in-bounds `get_volume index` call succeeds with shape
(1, C, Z, Y, X); every in-bounds element is the big-endian u16 sample at
byte offset `52 + index * bytesPerVolume + 16 + 2 * flat` where `flat` is
the row-major rank of (c, z, y, x), all such offsets (and their second
byte) lying inside the slice of exactly `bytesPerVolume - 16` bytes that
starts at `52 + index * bytesPerVolume + 16`; the imagej variant is the
(1, Z, C, Y, X) axis permutation of the same data. -/
theorem get_volume_addressing_correct (st : ScapeVirtualStack)
    (index c z y x : Int)
    (h0 : 0 ≤ index) (h1 : index < st.header.n_frame)
    (hc0 : 0 ≤ c) (hc1 : c < st.header.n_channel)
    (hz0 : 0 ≤ z) (hz1 : z < st.header.depth)
    (hy0 : 0 ≤ y) (hy1 : y < st.header.height)
    (hx0 : 0 ≤ x) (hx1 : x < st.header.width) :
    ∃ plain ij : Arr5,
      st.get_volume index false = .ok plain ∧
      st.get_volume index true = .ok ij ∧
      plain.shape = (1, st.header.n_channel, st.header.depth,
        st.header.height, st.header.width) ∧
      ij.shape = (1, st.header.depth, st.header.n_channel,
        st.header.height, st.header.width) ∧
      plain.val 0 c z y x = be16 st.raf (52 + index * st.header.bytes_per_volume + 16 +
        2 * (((c * st.header.depth + z) * st.header.height + y) * st.header.width + x)) ∧
      (52 + index * st.header.bytes_per_volume + 16 ≤
        52 + index * st.header.bytes_per_volume + 16 +
          2 * (((c * st.header.depth + z) * st.header.height + y) * st.header.width + x) ∧
       52 + index * st.header.bytes_per_volume + 16 +
          2 * (((c * st.header.depth + z) * st.header.height + y) * st.header.width + x) + 1 <
        52 + index * st.header.bytes_per_volume + st.header.bytes_per_volume) ∧
      ij.val 0 z c y x = plain.val 0 c z y x := by
  refine ⟨_, _, get_volume_ok_plain st index h0 h1, get_volume_ok_imagej st index h0 h1,
    rfl, rfl, rfl, ?_, rfl⟩
  have hfb := flat_index_bounds st.header c z y x hc0 hc1 hz0 hz1 hy0 hy1 hx0 hx1
  have hbpv : st.header.bytes_per_volume = st.header.pixels_per_volume * 2 + 16 := rfl
  omega

/-- C3 witness: concrete instantiation on `stackW` at index 3 and voxel
(0, 1, 0, 2). -/
theorem get_volume_addressing_correct_witness :
    ((0 : Int) ≤ 3 ∧ (3 : Int) < stackW.header.n_frame ∧
     (0 : Int) ≤ 0 ∧ (0 : Int) < stackW.header.n_channel ∧
     (0 : Int) ≤ 1 ∧ (1 : Int) < stackW.header.depth ∧
     (0 : Int) ≤ 0 ∧ (0 : Int) < stackW.header.height ∧
     (0 : Int) ≤ 2 ∧ (2 : Int) < stackW.header.width) ∧
    (∃ plain ij : Arr5,
      stackW.get_volume 3 false = .ok plain ∧
      stackW.get_volume 3 true = .ok ij ∧
      plain.shape = (1, stackW.header.n_channel, stackW.header.depth,
        stackW.header.height, stackW.header.width) ∧
      ij.shape = (1, stackW.header.depth, stackW.header.n_channel,
        stackW.header.height, stackW.header.width) ∧
      plain.val 0 0 1 0 2 = be16 stackW.raf (52 + 3 * stackW.header.bytes_per_volume + 16 +
        2 * (((0 * stackW.header.depth + 1) * stackW.header.height + 0) * stackW.header.width + 2)) ∧
      (52 + 3 * stackW.header.bytes_per_volume + 16 ≤
        52 + 3 * stackW.header.bytes_per_volume + 16 +
          2 * (((0 * stackW.header.depth + 1) * stackW.header.height + 0) * stackW.header.width + 2) ∧
       52 + 3 * stackW.header.bytes_per_volume + 16 +
          2 * (((0 * stackW.header.depth + 1) * stackW.header.height + 0) * stackW.header.width + 2) + 1 <
        52 + 3 * stackW.header.bytes_per_volume + stackW.header.bytes_per_volume) ∧
      ij.val 0 1 0 0 2 = plain.val 0 0 1 0 2) :=
  ⟨by decide,
    get_volume_addressing_correct stackW 3 0 1 0 2 (by decide) (by decide) (by decide)
      (by decide) (by decide) (by decide) (by decide) (by decide) (by decide) (by decide)⟩

/-- C6: for in-range endpoints with `start > end`, `get_multi_volumes`
swaps the endpoints rather than rejecting them, so the call equals the one
with the arguments exchanged. -/
theorem get_multi_volumes_swap_symmetric (st : ScapeVirtualStack)
    (start end_ : Int) (imagej : Bool)
    (hs0 : 0 ≤ start) (hsT : start < st.header.n_frame)
    (he0 : 0 ≤ end_) (heT : end_ < st.header.n_frame)
    (hgt : start > end_) :
    st.get_multi_volumes start end_ imagej = st.get_multi_volumes end_ start imagej := by
  simp only [ScapeVirtualStack.get_multi_volumes,
    if_neg (show ¬(start < 0 ∨ start ≥ st.header.n_frame) by omega),
    if_neg (show ¬(end_ < 0 ∨ end_ ≥ st.header.n_frame) by omega),
    if_pos (show start > end_ from hgt),
    if_neg (show ¬(end_ > start) by omega)]

/-- C6 witness: concrete instantiation on `stackW` with the inverted range
(3, 1). -/
theorem get_multi_volumes_swap_symmetric_witness :
    ((0 : Int) ≤ 3 ∧ (3 : Int) < stackW.header.n_frame ∧
     (0 : Int) ≤ 1 ∧ (1 : Int) < stackW.header.n_frame ∧ (3 : Int) > 1) ∧
    stackW.get_multi_volumes 3 1 false = stackW.get_multi_volumes 1 3 false :=
  ⟨by decide,
    get_multi_volumes_swap_symmetric stackW 3 1 false (by decide) (by decide)
      (by decide) (by decide) (by decide)⟩

/-- The `b`-th chunk of the export loop runs from `b * chunksize` to
`min (b * chunksize + chunksize - 1) (T - 1)`. -/
theorem chunkBounds_getD (T k : Int) (hk : 0 < k) (b : Nat)
    (hb : b < (chunkBounds T k).length) :
    (chunkBounds T k).getD b (0, 0) =
      ((b : Int) * k, min ((b : Int) * k + k - 1) (T - 1)) := by
  have hbl : b < (pyRangeStep 0 T k).length := by
    simpa [chunkBounds] using hb
  have hget := pyRangeStep_getD T k hk 0 b hbl
  simp only [chunkBounds]
  rw [List.getD_eq_getElem?_getD, List.getElem?_map, List.getElem?_eq_getElem hbl]
  simp only [Option.map_some', Option.getD_some]
  rw [show (pyRangeStep 0 T k)[b] = (pyRangeStep 0 T k).getD b 0 from
    (List.getD_eq_getElem _ _ hbl).symm, hget]
  norm_num

/-- C8: with a positive chunk size `k`, the export loop shared by the TIFF
and HDF5 drivers produces exactly `ceil(T / k)` batches; the `b`-th batch
covers `[b*k, min (b*k + k - 1) (T - 1)]`, so the batches tile `[0, T)` in
order with spans of at most `k` frames and only the last batch shorter;
every batch comes from `get_multi_volumes` with the interchange layout —
shape `(N, Z, C, Y, X)` — and is element-wise the corresponding time slice
of the full-range retrieval `get_multi_volumes 0 (T - 1)`, so concatenating
the batches along the time axis reproduces it. -/
theorem chunked_export_covers_and_matches (st : ScapeVirtualStack) (k : Int)
    (hk : 0 < k) (hT : 0 < st.header.n_frame) :
    (chunkBounds st.header.n_frame k).length = ((st.header.n_frame + k - 1) / k).toNat ∧
    (∀ b : Nat, b < (chunkBounds st.header.n_frame k).length →
      (chunkBounds st.header.n_frame k).getD b (0, 0) =
        ((b : Int) * k, min ((b : Int) * k + k - 1) (st.header.n_frame - 1))) ∧
    (∀ b : Nat, b + 1 < (chunkBounds st.header.n_frame k).length →
      min ((b : Int) * k + k - 1) (st.header.n_frame - 1) = (b : Int) * k + k - 1) ∧
    (∀ b : Nat, b < (chunkBounds st.header.n_frame k).length →
      ∃ batch full : Arr5,
        st.get_multi_volumes ((b : Int) * k)
          (min ((b : Int) * k + k - 1) (st.header.n_frame - 1)) true = .ok batch ∧
        st.get_multi_volumes 0 (st.header.n_frame - 1) true = .ok full ∧
        batch.shape = (min ((b : Int) * k + k - 1) (st.header.n_frame - 1) - (b : Int) * k + 1,
          st.header.depth, st.header.n_channel, st.header.height, st.header.width) ∧
        full.shape = (st.header.n_frame, st.header.depth, st.header.n_channel,
          st.header.height, st.header.width) ∧
        (∀ j c z y x : Int, batch.val j z c y x = full.val ((b : Int) * k + j) z c y x)) := by
  have hlen : (chunkBounds st.header.n_frame k).length =
      ((st.header.n_frame + k - 1) / k).toNat := by
    simp only [chunkBounds, List.length_map, pyRangeStep_length st.header.n_frame k hk 0]
    norm_num
  have hQ0 : 0 ≤ (st.header.n_frame + k - 1) / k := Int.ediv_nonneg (by omega) (by omega)
  have hqk : ((st.header.n_frame + k - 1) / k) * k ≤ st.header.n_frame + k - 1 :=
    Int.ediv_mul_le _ (by omega)
  refine ⟨hlen, fun b hb => chunkBounds_getD st.header.n_frame k hk b hb, ?_, ?_⟩
  · intro b hb
    have hbQ : ((b : Int) + 2) ≤ (st.header.n_frame + k - 1) / k := by
      rw [hlen] at hb
      omega
    have hmul : ((b : Int) + 2) * k ≤ ((st.header.n_frame + k - 1) / k) * k :=
      mul_le_mul_of_nonneg_right hbQ (by omega)
    have hexp : ((b : Int) + 2) * k = (b : Int) * k + 2 * k := by ring
    exact min_eq_left (by omega)
  · intro b hb
    have hbQ : ((b : Int) + 1) ≤ (st.header.n_frame + k - 1) / k := by
      rw [hlen] at hb
      omega
    have hmul : ((b : Int) + 1) * k ≤ ((st.header.n_frame + k - 1) / k) * k :=
      mul_le_mul_of_nonneg_right hbQ (by omega)
    have hexp : ((b : Int) + 1) * k = (b : Int) * k + k := by ring
    have hbk0 : 0 ≤ (b : Int) * k := mul_nonneg (Int.natCast_nonneg b) (le_of_lt hk)
    have hbkT : (b : Int) * k ≤ st.header.n_frame - 1 := by omega
    have hse : (b : Int) * k ≤ min ((b : Int) * k + k - 1) (st.header.n_frame - 1) :=
      le_min (by omega) hbkT
    have heT : min ((b : Int) * k + k - 1) (st.header.n_frame - 1) < st.header.n_frame :=
      lt_of_le_of_lt (min_le_right _ _) (by omega)
    refine ⟨_, _, get_multi_volumes_ok_imagej st _ _ hbk0 hse heT,
      get_multi_volumes_ok_imagej st 0 (st.header.n_frame - 1) le_rfl (by omega) (by omega),
      rfl, ?_, ?_⟩
    · rw [show st.header.n_frame - 1 - 0 + 1 = st.header.n_frame by omega]
    · intro j c z y x
      show be16 st.raf _ = be16 st.raf _
      congr 1
      have hb2 := bytes_per_volume_two_mul st.header
      generalize st.header.bytes_per_volume / 2 = r at hb2
      rw [← hb2]
      ring

/-- C8 witness: concrete instantiation on `stackW` (5 frames) with chunk
size 2, giving 3 batches. -/
theorem chunked_export_covers_and_matches_witness :
    ((0 : Int) < 2 ∧ (0 : Int) < stackW.header.n_frame) ∧
    ((chunkBounds stackW.header.n_frame 2).length =
        ((stackW.header.n_frame + 2 - 1) / 2).toNat ∧
    (∀ b : Nat, b < (chunkBounds stackW.header.n_frame 2).length →
      (chunkBounds stackW.header.n_frame 2).getD b (0, 0) =
        ((b : Int) * 2, min ((b : Int) * 2 + 2 - 1) (stackW.header.n_frame - 1))) ∧
    (∀ b : Nat, b + 1 < (chunkBounds stackW.header.n_frame 2).length →
      min ((b : Int) * 2 + 2 - 1) (stackW.header.n_frame - 1) = (b : Int) * 2 + 2 - 1) ∧
    (∀ b : Nat, b < (chunkBounds stackW.header.n_frame 2).length →
      ∃ batch full : Arr5,
        stackW.get_multi_volumes ((b : Int) * 2)
          (min ((b : Int) * 2 + 2 - 1) (stackW.header.n_frame - 1)) true = .ok batch ∧
        stackW.get_multi_volumes 0 (stackW.header.n_frame - 1) true = .ok full ∧
        batch.shape = (min ((b : Int) * 2 + 2 - 1) (stackW.header.n_frame - 1) - (b : Int) * 2 + 1,
          stackW.header.depth, stackW.header.n_channel, stackW.header.height, stackW.header.width) ∧
        full.shape = (stackW.header.n_frame, stackW.header.depth, stackW.header.n_channel,
          stackW.header.height, stackW.header.width) ∧
        (∀ j c z y x : Int, batch.val j z c y x = full.val ((b : Int) * 2 + j) z c y x))) :=
  ⟨by decide, chunked_export_covers_and_matches stackW 2 (by decide) (by decide)⟩

end ScapeUtils
